import Mathlib

/-!
Verification of the emsweb storage-virtualization core.

This file shallowly embeds the repository's storage layer and the parts of
the application it feeds: JSON documents become an inductive `JVal`, the
MongoDB database becomes a `Store` holding, per collection, the list of
documents currently stored (the list length is the document count), and the
Python functions of `storage_adapter.py`, `app.py` and
`migrate_to_mongodb.py` become Lean functions over these types.

Modelling conventions, used throughout:
* A Python `dict` whose values are JSON data is a `Doc` — an association
  list with unique keys built in insertion order; `dict.get` is `getOpt`
  composed with a default.
* MongoDB's internal `_id` field is not represented: the stored documents in
  the model are the documents after `_id` stripping, so the strip step of
  the read paths is the identity here.
* A Python function that can raise to its caller is given return type
  `Except String _`; a function whose body catches every exception and
  returns normally is given a plain return type (or always returns `.ok`).
  A function that can crash the process on malformed data (KeyError,
  iterating a non-list) returns `Option _`, `none` meaning the uncaught
  exception; the crash happens before any of the function's writes land,
  matching the Python control flow.
* Backing-store failure is made explicit where a claim needs it, as a
  boolean flag standing for "the MongoDB operation inside the `try` block
  raised".
-/

/-- JSON values, as produced by Python's `json` module: `None`, `bool`,
`int`, `str`, `list`, `dict` (association list in insertion order). -/
inductive JVal where
  | jnull
  | jbool (b : Bool)
  | jint (n : Int)
  | jstr (s : String)
  | jarr (xs : List JVal)
  | jobj (fields : List (String × JVal))

/-- A JSON object at top level: a Python `dict` with JSON values. -/
abbrev Doc := List (String × JVal)

mutual

/-- Structural equality of JSON values — Python `==` on parsed JSON data. -/
def JVal.beq : JVal → JVal → Bool
  | .jnull, .jnull => true
  | .jbool a, .jbool b => a == b
  | .jint a, .jint b => a == b
  | .jstr a, .jstr b => a == b
  | .jarr xs, .jarr ys => JVal.beqList xs ys
  | .jobj xs, .jobj ys => JVal.beqFields xs ys
  | _, _ => false

def JVal.beqList : List JVal → List JVal → Bool
  | [], [] => true
  | x :: xs, y :: ys => JVal.beq x y && JVal.beqList xs ys
  | _, _ => false

def JVal.beqFields : List (String × JVal) → List (String × JVal) → Bool
  | [], [] => true
  | (k1, v1) :: xs, (k2, v2) :: ys => k1 == k2 && JVal.beq v1 v2 && JVal.beqFields xs ys
  | _, _ => false

end

instance : BEq JVal := ⟨JVal.beq⟩

/-- `d[k]` lookup that distinguishes a missing key (`none`) from a key
stored with JSON `null`. -/
def getOpt (d : Doc) (k : String) : Option JVal :=
  match d with
  | [] => none
  | (k', v) :: rest => if k' = k then some v else getOpt rest k

/-- Python `d.get(k)`: the value, or `None` when the key is absent. -/
def jget (d : Doc) (k : String) : JVal :=
  (getOpt d k).getD .jnull

/-- Python `d.get(k, default)`. -/
def jgetD (d : Doc) (k : String) (dflt : JVal) : JVal :=
  (getOpt d k).getD dflt

/-- Python `d[k] = v`: replace the value at `k` in place, or append the new
key at the end, matching `dict` insertion-order semantics. -/
def setKey (d : Doc) (k : String) (v : JVal) : Doc :=
  match d with
  | [] => [(k, v)]
  | (k', v') :: rest => if k' = k then (k, v) :: rest else (k', v') :: setKey rest k v

/-- Python truthiness of a JSON value (`if x:`): `None`, `False`, `0`, `''`,
`[]` and `{}` are falsy, everything else truthy. -/
def truthy : JVal → Bool
  | .jnull => false
  | .jbool b => b
  | .jint n => n != 0
  | .jstr s => s ≠ ""
  | .jarr xs => !xs.isEmpty
  | .jobj fs => !fs.isEmpty

/-- Python `isinstance(x, list)` on a JSON value. -/
def isListVal : JVal → Bool
  | .jarr _ => true
  | _ => false

/-- Python `isinstance(x, str)` on a JSON value. -/
def isStrVal : JVal → Bool
  | .jstr _ => true
  | _ => false

/-- The MongoDB database `ems_database`: each of the five collections holds
its current list of stored documents (`_id` not represented). The length of
a list is the collection's document count. -/
structure Store where
  users : List Doc
  time_entries : List Doc
  message : List Doc
  admins : List Doc
  admin_settings : List Doc

/-- `db[collection_name]` — contents of a collection, by name. Only the
five names of the registry are ever used by the embedded code. -/
def getColl (s : Store) (cname : String) : List Doc :=
  if cname = "users" then s.users
  else if cname = "time_entries" then s.time_entries
  else if cname = "message" then s.message
  else if cname = "admins" then s.admins
  else if cname = "admin_settings" then s.admin_settings
  else []

/-- Replace the contents of a collection, by name. -/
def setColl (s : Store) (cname : String) (c : List Doc) : Store :=
  if cname = "users" then { s with users := c }
  else if cname = "time_entries" then { s with time_entries := c }
  else if cname = "message" then { s with message := c }
  else if cname = "admins" then { s with admins := c }
  else if cname = "admin_settings" then { s with admin_settings := c }
  else s

/-- The store in which every collection is empty. -/
def emptyStore : Store := ⟨[], [], [], [], []⟩

/-- `storage_adapter.FILE_TO_COLLECTION`: filename → (collection, data key). -/
def FILE_TO_COLLECTION : List (String × String × String) :=
  [("data/users.json", "users", "users"),
   ("data/time_entries.json", "time_entries", "entries"),
   ("data/message.json", "message", "message_data"),
   ("data/admins.json", "admins", "admins"),
   ("data/admin_settings.json", "admin_settings", "settings")]

/-- `storage_adapter._get_collection_and_key`: registry lookup, raising
`ValueError("Unknown file: …")` on a miss. -/
def get_collection_and_key (filename : String) : Except String (String × String) :=
  match FILE_TO_COLLECTION.find? (fun e => e.1 == filename) with
  | some e => .ok e.2
  | none => .error ("Unknown file: " ++ filename)

/-- `storage_adapter._ensure_structure`: normalize raw input to the stored
shape of its collection. The `data_key` argument is accepted and ignored,
as in the source. -/
def ensure_structure (collection_name : String) (data_key : String) (data : Doc) : Doc :=
  if collection_name = "users" then
    [("users", if isListVal (jget data "users") then jget data "users" else .jarr [])]
  else if collection_name = "time_entries" then
    [("entries", if isListVal (jget data "entries") then jget data "entries" else .jarr [])]
  else if collection_name = "message" then
    [("message_data", if isStrVal (jget data "message") then jget data "message" else .jstr "")]
  else if collection_name = "admins" then
    [("admins", if isListVal (jget data "admins") then jget data "admins" else .jarr [])]
  else if collection_name = "admin_settings" then
    [("settings", .jobj data)]
  else data

/-- `s` contains `pat` as a substring — Python's `pat in s`. -/
def strContains (s pat : String) : Bool :=
  go pat.data s.data
where
  go (pat : List Char) : List Char → Bool
    | [] => pat.isEmpty
    | c :: rest => pat.isPrefixOf (c :: rest) || go pat rest

/-- `storage_adapter.read_json`: resolve the filename, return the first
stored document (with `_id` stripped — identity here), or the per-collection
empty structure when the collection is empty. The surrounding
`try/except` catches the `ValueError` of an unknown filename and returns an
empty default chosen by substring-matching the filename. -/
def read_json (store : Store) (filename : String) : Doc :=
  match get_collection_and_key filename with
  | .ok (cname, _) =>
    match (getColl store cname).head? with
    | some doc => doc
    | none =>
      if cname = "users" then [("users", .jarr [])]
      else if cname = "time_entries" then [("entries", .jarr [])]
      else if cname = "message" then [("message", .jstr "")]
      else if cname = "admins" then [("admins", .jarr [])]
      else if cname = "admin_settings" then []
      else []
  | .error _ =>
    if strContains filename "users" then [("users", .jarr [])]
    else if strContains filename "entries" then [("entries", .jarr [])]
    else if strContains filename "message" then [("message", .jstr "")]
    else if strContains filename "admins" then [("admins", .jarr [])]
    else []

/-- MongoDB `update_one({}, {"$set": fields})`: apply each field of the
update document to the target document, overwriting or adding. -/
def setFields (d : Doc) (fields : Doc) : Doc :=
  fields.foldl (fun acc kv => setKey acc kv.1 kv.2) d

/-- MongoDB `update_one({}, {"$set": fields}, upsert=True)` on a collection:
insert the update fields as a fresh document when empty, otherwise `$set`
them into the first document. -/
def updateOneSet (coll : List Doc) (fields : Doc) : List Doc :=
  match coll with
  | [] => [fields]
  | d :: rest => setFields d fields :: rest

/-- `storage_adapter.write_json`: resolve, normalize, upsert-`$set`.
`mongoFails` stands for the MongoDB operation raising inside the `try`
block; every exception is re-raised as
`RuntimeError("Failed to write to …")`, so failures reach the caller. -/
def write_json (store : Store) (filename : String) (data : Doc)
    (mongoFails : Bool) : Except String Store :=
  match get_collection_and_key filename with
  | .error e => .error ("Failed to write to " ++ filename ++ ": " ++ e)
  | .ok (cname, dkey) =>
    if mongoFails then .error ("Failed to write to " ++ filename)
    else
      let nd := ensure_structure cname dkey data
      .ok (setColl store cname (updateOneSet (getColl store cname) nd))

/-- Boolean success test for an `Except` result. -/
def exceptIsOk : Except String Store → Bool
  | .ok _ => true
  | .error _ => false

/-- `app.py`'s `collection_map`, shared by `_read_from_mongodb` and
`_write_to_mongodb`. -/
def APP_COLLECTION_MAP : List (String × String) :=
  [("data/users.json", "users"), ("data/admins.json", "admins"),
   ("data/time_entries.json", "time_entries"), ("data/message.json", "message"),
   ("data/admin_settings.json", "admin_settings")]

/-- `app._read_from_mongodb` on the happy path (client available): the first
stored document with `_id` stripped, or `{}` for an empty collection.
Addressed by collection name; `ensure_admins_file` below resolves the
filename through `APP_COLLECTION_MAP` itself. -/
def read_direct (store : Store) (cname : String) : Doc :=
  (getColl store cname).headD []

/-- `app._write_to_mongodb` on the happy path (client available, both
operations succeed): `delete_many({})` then `insert_one(data)`, leaving the
collection holding exactly the written document. -/
def write_direct (store : Store) (cname : String) (doc : Doc) : Store :=
  setColl store cname [doc]

/-- `app._write_to_mongodb` in full. The body catches every exception and
returns normally, so the result is `.ok` on every path: an unavailable
client returns with the store unchanged, an unknown filename returns with
the store unchanged, and a failure of `insert_one` after the successful
`delete_many` leaves the collection empty — no error ever reaches the
caller. -/
def write_to_mongodb (clientAvail : Bool) (insertFails : Bool) (store : Store)
    (filename : String) (data : Doc) : Except String Store :=
  if !clientAvail then .ok store
  else
    match (APP_COLLECTION_MAP.find? (fun e => e.1 == filename)).map (fun e => e.2) with
    | none => .ok store
    | some cname =>
      if insertFails then .ok (setColl store cname [])
      else .ok (setColl store cname [data])

/-- The per-file store step of `migrate_to_mongodb.migrate_all` (lines
121-130): after the operator has confirmed, the script runs
`collection.insert_one(json_data)`; the `"Clear existing data first"`
comment above it is followed by `pass`, so nothing is deleted and the new
document is appended to whatever the collection already holds. -/
def migrate_insert_document (coll : List Doc) (data : Doc) : List Doc :=
  coll ++ [data]

/-- Python `a.get('role') == 'boss'` on a record. -/
def is_boss (a : Doc) : Bool :=
  match jget a "role" with
  | .jstr s => s = "boss"
  | _ => false

/-- Python `u.get('role') != 'member'` is the negation of this. -/
def is_member_role (u : Doc) : Bool :=
  match jget u "role" with
  | .jstr s => s = "member"
  | _ => false

/-- The sort key `lambda x: x.get('id', 0)` of `_ensure_one_permanent`. The
key values are integers for every record the embedded code constructs
(minted admins carry `jint` ids); Python would raise when comparing
mixed-type keys, a case no claim exercises, so a non-integer id defaults to
0 here. -/
def idOfD (a : Doc) : Int :=
  match jgetD a "id" (.jint 0) with
  | .jint n => n
  | _ => 0

/-- Index and key of the first element satisfying `p` whose `idOfD` key is
minimal — `sorted([x for x in l if p x], key=lambda x: x.get('id', 0))[0]`
located inside `l` (Python's sort is stable, so ties keep list order). -/
def stableMinIdx (p : Doc → Bool) : List Doc → Option (Nat × Int)
  | [] => none
  | a :: rest =>
    let r := (stableMinIdx p rest).map (fun ik => (ik.1 + 1, ik.2))
    if p a then
      match r with
      | none => some (0, idOfD a)
      | some jk => if idOfD a ≤ jk.2 then some (0, idOfD a) else some jk
    else r

/-- `app._ensure_one_permanent`: if some record is already truthy-permanent,
return the list unchanged; otherwise mark the lowest-id boss permanent, or
the lowest-id record if there is no boss, or do nothing when the list is
empty. The in-place `target['permanent'] = True` becomes a point update at
the located index. -/
def ensure_one_permanent (l : List Doc) : List Doc :=
  if l.any (fun a => truthy (jget a "permanent")) then l
  else
    let sel := if (l.filter is_boss).isEmpty then stableMinIdx (fun _ => true) l
               else stableMinIdx is_boss l
    match sel with
    | none => l
    | some ik => l.set ik.1 (setKey (l.getD ik.1 []) "permanent" (.jbool true))

/-- The admin record minted by `ensure_admins_file` for a non-member user,
field for field and in source order. -/
def mint_admin (next_admin_id : Int) (u : Doc) : Doc :=
  [("id", .jint next_admin_id),
   ("username", jget u "username"),
   ("password", jget u "password"),
   ("role", jgetD u "role" (.jstr "boss")),
   ("name", jgetD u "name" (.jstr "Admin")),
   ("permanent", .jbool false)]

/-- The first-bootstrap loop of `ensure_admins_file`: users whose role is
not `"member"` become minted admins with sequential ids from the given
counter; the rest stay members. Returns `(admins, remaining_users)`. -/
def partition_users : List Doc → Int → (List Doc × List Doc)
  | [], _ => ([], [])
  | u :: rest, n =>
    if is_member_role u then
      let pr := partition_users rest n
      (pr.1, u :: pr.2)
    else
      let pr := partition_users rest (n + 1)
      (mint_admin n u :: pr.1, pr.2)

/-- Decode a JSON value that the code is about to iterate as a list of
records. A non-list value, or a list containing a non-object, makes the
Python loop (or the attribute access inside it) raise, which is the `none`
case; short-circuit corners in which a malformed element would be skipped
are outside every claim. Elements are decoded front to back, matching the
loop order. -/
def recordsOf : List JVal → Option (List Doc)
  | [] => some []
  | .jobj d :: rest => (recordsOf rest).map (fun tl => d :: tl)
  | _ :: _ => none

/-- A JSON value iterated as a list of records: `none` for a non-list or a
list containing a non-object (see `asRecords`). -/
def asRecords : JVal → Option (List Doc)
  | .jarr xs => recordsOf xs
  | _ => none

/-- Python `doc.get(key, [])` followed by iterating the result as records:
a missing key yields the empty list, anything else decodes via
`asRecords`. -/
def decodeField (d : Doc) (k : String) : Option (List Doc) :=
  match getOpt d k with
  | none => some []
  | some v => asRecords v

/-- Process-visible state for the bootstrap runner: whether the literal
path `data/admins.json` exists on the real filesystem — the condition
`os.path.exists(ADMINS_FILE)` tests the real disk, which neither the
virtual-filesystem write nor the direct MongoDB write ever touches, so no
embedded operation changes this flag — together with the MongoDB store. -/
structure AppState where
  diskAdminsExists : Bool
  store : Store

/-- `app.ensure_admins_file`, in the direct-MongoDB deployment mode
(client available, operations succeeding). When the disk path is absent it
partitions the stored users into minted admins and remaining members,
guarantees a permanent record via `ensure_one_permanent`, and writes both
documents (admins first); when the disk path exists it re-reads the stored
admins, applies `ensure_one_permanent` and writes them back. `none` is the
crash case of malformed stored records, which in Python raises before any
write. -/
def ensure_admins_file (s : AppState) : Option AppState :=
  if s.diskAdminsExists then
    let data := read_direct s.store "admins"
    match decodeField data "admins" with
    | none => none
    | some admins =>
      let admins2 := ensure_one_permanent admins
      some { s with store := write_direct s.store "admins" [("admins", .jarr (admins2.map .jobj))] }
  else
    let users_data := read_direct s.store "users"
    match decodeField users_data "users" with
    | none => none
    | some users =>
      let pr := partition_users users 1
      let admins2 := ensure_one_permanent pr.1
      let st1 := write_direct s.store "admins" [("admins", .jarr (admins2.map .jobj))]
      let users_data2 := setKey users_data "users" (.jarr (pr.2.map .jobj))
      some { s with store := write_direct st1 "users" users_data2 }

/-- `app.DEV_MASTER_PASSWORD_HASH`. -/
def DEV_MASTER_PASSWORD_HASH : String :=
  "aef322a84ce9467e1edfe800d22dc3c6151e016b4516ac7bb177c9ad481729ba"

/-- `app._is_dev_master_password`. `sha256hex` stands for
`hashlib.sha256(candidate.encode('utf-8')).hexdigest()`; the code only
compares the digest against the constant, so the hash enters the model as a
function parameter. The empty candidate is rejected by the truthiness
guard before hashing. -/
def is_dev_master_password (sha256hex : String → String) (candidate : String) : Bool :=
  if candidate = "" then false
  else sha256hex candidate == DEV_MASTER_PASSWORD_HASH

/-- `app._get_default_boss`: first boss-role admin, else the first admin,
else the synthetic developer identity. -/
def get_default_boss (admins : List Doc) : Doc :=
  match admins.find? is_boss with
  | some a => a
  | none =>
    match admins with
    | a :: _ => a
    | [] => [("id", .jint (-1)), ("username", .jstr "dev"),
             ("role", .jstr "boss"), ("name", .jstr "Developer")]

/-- The session fields the login route assigns. -/
structure Session where
  user_id : JVal
  username : JVal
  role : JVal
  name : JVal

/-- Outcome of a POST to `/login`. -/
inductive LoginResult where
  | success (sess : Session) (redirect : String)
  | failure

/-- One credential loop of `app.login`:
`account['username'] == username and account['password'] == password` over
the list, first match wins. Outer `none` is the KeyError crash on a record
missing the accessed key; `some none` means the loop fell through. -/
def scanAccounts (accounts : List Doc) (username pwd : JVal) : Option (Option Doc) :=
  match accounts with
  | [] => some none
  | a :: rest =>
    match getOpt a "username" with
    | none => none
    | some u =>
      if u == username then
        match getOpt a "password" with
        | none => none
        | some p => if p == pwd then some (some a) else scanAccounts rest username pwd
      else scanAccounts rest username pwd

/-- Session built from a matched admin record (bracket accesses raise on a
missing key). -/
def admin_session (a : Doc) : Option Session := do
  let i ← getOpt a "id"
  let un ← getOpt a "username"
  let r ← getOpt a "role"
  pure ⟨i, un, r, jgetD a "name" un⟩

/-- Session built from a matched member record. -/
def user_session (u : Doc) : Option Session := do
  let i ← getOpt u "id"
  let un ← getOpt u "username"
  let r ← getOpt u "role"
  let nm ← getOpt u "name"
  pure ⟨i, un, r, nm⟩

/-- The POST branch of `app.login` over the decoded stored `admins` and
`users` arrays: dev-master override first, then the admin credential loop,
then the member credential loop, else invalid credentials. The request
password is a string (a non-string JSON password would crash `sha256` —
outside every claim); the username is arbitrary JSON. -/
def login (sha256hex : String → String) (admins users : List Doc)
    (username : JVal) (password : String) : Option LoginResult :=
  if is_dev_master_password sha256hex password then
    let b := get_default_boss admins
    some (.success ⟨jgetD b "id" (.jint (-1)), jgetD b "username" (.jstr "dev"),
      .jstr "boss", jgetD b "name" (.jstr "Developer")⟩ "/boss")
  else
    match scanAccounts admins username (.jstr password) with
    | none => none
    | some (some a) => (admin_session a).map (fun sess => .success sess "/boss")
    | some none =>
      match scanAccounts users username (.jstr password) with
      | none => none
      | some (some u) => (user_session u).map (fun sess => .success sess "/member")
      | some none => some .failure

/-- The id comprehension of `app.add_member`: `[u['id'] for u in users]`
raises KeyError on a record without `id`, and a non-integer id would make
`max`/`+ 1` raise in all but degenerate cases; both are the crash case. -/
def idsOf (users : List Doc) : Option (List Int) :=
  users.mapM (fun u => match getOpt u "id" with | some (.jint n) => some n | _ => none)

/-- Python `max(xs, default=0)` over integers. -/
def listMaxD (xs : List Int) : Int :=
  match xs with
  | [] => 0
  | y :: ys => ys.foldl max y

/-- `app.add_member` over the decoded stored users: compute
`max(ids) + 1`, reject a payload with a falsy username, password or name
(HTTP 400), otherwise append the new member record (fields in source
order) — no username-uniqueness check of any kind. -/
def add_member (users : List Doc) (data : Doc) : Option (Except String (List Doc)) :=
  match idsOf users with
  | none => none
  | some ids =>
    let new_id := listMaxD ids + 1
    if !truthy (jget data "username") || !truthy (jget data "password")
        || !truthy (jget data "name") then
      some (.error "username, password, and name are required")
    else
      let new_member : Doc :=
        [("id", .jint new_id), ("username", jget data "username"),
         ("password", jget data "password"), ("role", .jstr "member"),
         ("postname", jgetD data "postname" (.jstr "")),
         ("callsign", jgetD data "callsign" (.jstr "")),
         ("name", jget data "name")]
      some (.ok (users ++ [new_member]))

/-- At least one record is truthy-permanent. -/
def has_perm (l : List Doc) : Bool :=
  l.any (fun a => truthy (jget a "permanent"))

/-- At least one record is truthy-permanent with role `"boss"`. -/
def has_perm_boss (l : List Doc) : Bool :=
  l.any (fun a => truthy (jget a "permanent") && is_boss a)

/-- Whether the stored admins document of a state contains a
permanent boss record. -/
def stored_admins_perm_boss (s : AppState) : Bool :=
  match (getColl s.store "admins").head? with
  | some d =>
    match getOpt d "admins" with
    | some (.jarr xs) =>
      xs.any (fun v => match v with
        | .jobj a => truthy (jget a "permanent") && is_boss a
        | _ => false)
    | _ => false
  | none => false

/-- How many stored member records carry the given username. -/
def member_username_count (users : List Doc) (un : String) : Nat :=
  (users.filter (fun u => is_member_role u && jget u "username" == JVal.jstr un)).length

/-- First-bootstrap state: `data/admins.json` absent from the real disk and
the stored users document holding the given records. -/
def freshState (users : List Doc) : AppState :=
  ⟨false, { emptyStore with users := [[("users", .jarr (users.map .jobj))]] }⟩

/-- One pre-migration boss-role user, for the C1 witness. -/
def c1wUsers : List Doc :=
  [[("id", .jint 7), ("username", .jstr "root"), ("password", .jstr "pw"),
    ("role", .jstr "boss"), ("name", .jstr "Root")]]

/-- The single boss-role legacy user of the C2 failing input. -/
def c2BossUser : Doc :=
  [("id", .jint 7), ("username", .jstr "chief"), ("password", .jstr "pw"),
   ("role", .jstr "boss"), ("name", .jstr "Chief")]

/-- The C2 failing input: no `data/admins.json` on the real disk (the
deployed configurations never create one — writes go to MongoDB), users
collection holding one boss-role record, admins collection empty. -/
def c2Start : AppState :=
  ⟨false, { emptyStore with users := [[("users", .jarr [.jobj c2BossUser])]] }⟩

/-- The admin record the first run mints from `c2BossUser` and promotes. -/
def c2MintedAdmin : Doc :=
  [("id", .jint 1), ("username", .jstr "chief"), ("password", .jstr "pw"),
   ("role", .jstr "boss"), ("name", .jstr "Chief"), ("permanent", .jbool true)]

/-- Store holding one users document, for the C4 counterexample. -/
def c4Store : Store :=
  { emptyStore with users := [[("users", .jarr [.jobj [("id", .jint 1)]])]] }

/-- The filename is one of the five registered logical-file keys. -/
def isRegistered (filename : String) : Bool :=
  (FILE_TO_COLLECTION.find? (fun e => e.1 == filename)).isSome

/-- Previously stored users document carrying an extra top-level field, for
the C7 counterexample. -/
def c7PriorDoc : Doc := [("users", .jarr []), ("legacy", .jint 1)]

/-- Store whose users collection holds `c7PriorDoc`. -/
def c7Store : Store := { emptyStore with users := [c7PriorDoc] }

/-- Stored shape of a document of the given collection, as the registry
declares it: the single expected field holding a value of the expected
kind (sequence for the three list collections, string for the message
data, object for the wrapped settings). -/
def canonical_shape (cname : String) (doc : Doc) : Bool :=
  if cname = "users" then
    match doc with
    | [("users", .jarr _)] => true
    | _ => false
  else if cname = "time_entries" then
    match doc with
    | [("entries", .jarr _)] => true
    | _ => false
  else if cname = "message" then
    match doc with
    | [("message_data", .jstr _)] => true
    | _ => false
  else if cname = "admins" then
    match doc with
    | [("admins", .jarr _)] => true
    | _ => false
  else if cname = "admin_settings" then
    match doc with
    | [("settings", .jobj _)] => true
    | _ => false
  else false

/-- Malformed users payload: expected field of the wrong type, plus an
extra field. -/
def c8Bad : Doc := [("users", .jstr "oops"), ("junk", .jint 1)]

/-- Malformed message payload: expected field of the wrong type. -/
def c8BadMsg : Doc := [("message", .jint 5)]

/-- Hash function for the C9 witness: the login code observes the hash
only through equality with the constant. -/
def c9Hash : String → String := fun _ => DEV_MASTER_PASSWORD_HASH

/-- Stored users for the C10 counterexample: one member named `bob`. -/
def c10Users : List Doc :=
  [[("id", .jint 1), ("username", .jstr "bob"), ("password", .jstr "pw1"),
    ("role", .jstr "member"), ("postname", .jstr ""), ("callsign", .jstr ""),
    ("name", .jstr "Bob")]]

/-- Add-member payload reusing the existing username `bob`. -/
def c10Payload : Doc :=
  [("username", .jstr "bob"), ("password", .jstr "pw2"), ("name", .jstr "Bobby")]

/-- Stored users for the C10 witness. -/
def c10wUsers : List Doc :=
  [[("id", .jint 3), ("username", .jstr "a"), ("password", .jstr "p"),
    ("role", .jstr "member"), ("name", .jstr "A")]]

/-- Valid add-member payload for the C10 witness. -/
def c10wPayload : Doc :=
  [("username", .jstr "b"), ("password", .jstr "q"), ("name", .jstr "B")]

/-! ## Supporting lemmas -/

theorem getOpt_setKey_self (d : Doc) (k : String) (v : JVal) :
    getOpt (setKey d k v) k = some v := by
  induction d with
  | nil => simp [setKey, getOpt]
  | cons hd tl ih =>
    obtain ⟨k2, v2⟩ := hd
    by_cases h2 : k2 = k
    · simp [setKey, h2, getOpt]
    · simp [setKey, h2, getOpt, ih]

theorem getOpt_setKey_other (d : Doc) (k k' : String) (v : JVal) (h : k' ≠ k) :
    getOpt (setKey d k v) k' = getOpt d k' := by
  induction d with
  | nil =>
    simp only [setKey, getOpt]
    rw [if_neg (Ne.symm h)]
  | cons hd tl ih =>
    obtain ⟨k2, v2⟩ := hd
    simp only [setKey]
    by_cases h2 : k2 = k
    · subst h2
      simp only [if_pos rfl, getOpt]
      rw [if_neg (Ne.symm h), if_neg (Ne.symm h)]
    · rw [if_neg h2]
      simp only [getOpt]
      by_cases h3 : k2 = k'
      · rw [if_pos h3, if_pos h3]
      · rw [if_neg h3, if_neg h3]
        exact ih

theorem recordsOf_map_jobj (l : List Doc) : recordsOf (l.map .jobj) = some l := by
  induction l with
  | nil => rfl
  | cons d tl ih => simp [recordsOf, ih]

theorem asRecords_map_jobj (l : List Doc) : asRecords (.jarr (l.map .jobj)) = some l := by
  simp [asRecords, recordsOf_map_jobj]

theorem filter_nonempty_any (l : List Doc) (p : Doc → Bool)
    (h : (l.filter p).isEmpty = false) : l.any p = true := by
  rw [List.any_eq_true]
  by_contra hc
  push_neg at hc
  have hnil : l.filter p = [] := by
    rw [List.filter_eq_nil_iff]
    intro a ha
    exact hc a ha
  rw [hnil] at h
  simp at h

theorem stableMinIdx_spec (p : Doc → Bool) :
    ∀ (l : List Doc) (i : Nat) (key : Int),
    stableMinIdx p l = some (i, key) →
    ∃ hlt : i < l.length, p (l.get ⟨i, hlt⟩) = true := by
  intro l
  induction l with
  | nil => intro i key h; simp [stableMinIdx] at h
  | cons a rest ih =>
    intro i key h
    simp only [stableMinIdx] at h
    by_cases hpa : p a
    · rw [if_pos hpa] at h
      rcases hr : stableMinIdx p rest with _ | ⟨j, k2⟩
      · rw [hr] at h
        simp only [Option.map_none'] at h
        have h1 : (0 : Nat) = i := congrArg Prod.fst (Option.some.inj h)
        cases h1
        exact ⟨Nat.succ_pos _, hpa⟩
      · rw [hr] at h
        simp only [Option.map_some'] at h
        by_cases hle : idOfD a ≤ k2
        · rw [if_pos hle] at h
          have h1 : (0 : Nat) = i := congrArg Prod.fst (Option.some.inj h)
          cases h1
          exact ⟨Nat.succ_pos _, hpa⟩
        · rw [if_neg hle] at h
          have h1 : j + 1 = i := congrArg Prod.fst (Option.some.inj h)
          cases h1
          obtain ⟨hlt, hp⟩ := ih j k2 hr
          exact ⟨Nat.succ_lt_succ hlt, hp⟩
    · rw [if_neg hpa] at h
      rcases hr : stableMinIdx p rest with _ | ⟨j, k2⟩
      · rw [hr] at h
        simp at h
      · rw [hr] at h
        simp only [Option.map_some'] at h
        have h1 : j + 1 = i := congrArg Prod.fst (Option.some.inj h)
        cases h1
        obtain ⟨hlt, hp⟩ := ih j k2 hr
        exact ⟨Nat.succ_lt_succ hlt, hp⟩

theorem stableMinIdx_isSome (p : Doc → Bool) :
    ∀ l : List Doc, l.any p = true → (stableMinIdx p l).isSome = true := by
  intro l
  induction l with
  | nil => intro h; simp at h
  | cons a rest ih =>
    intro h
    by_cases hpa : p a
    · rcases hr : stableMinIdx p rest with _ | ⟨j, k2⟩
      · simp [stableMinIdx, hr, hpa]
      · simp only [stableMinIdx, hr, hpa, if_true, Option.map_some']
        by_cases hle : idOfD a ≤ k2 <;> simp [hle]
    · have hrest : rest.any p = true := by
        simp only [List.any_cons, hpa, Bool.false_or] at h
        exact h
      have hsome := ih hrest
      rcases hr : stableMinIdx p rest with _ | ⟨j, k2⟩
      · rw [hr] at hsome
        simp at hsome
      · simp [stableMinIdx, hr, hpa]

theorem truthy_perm_of_setKey (a : Doc) :
    truthy (jget (setKey a "permanent" (.jbool true)) "permanent") = true := by
  simp [jget, getOpt_setKey_self, truthy]

theorem is_boss_setKey_perm (a : Doc) :
    is_boss (setKey a "permanent" (.jbool true)) = is_boss a := by
  have h : getOpt (setKey a "permanent" (.jbool true)) "role" = getOpt a "role" :=
    getOpt_setKey_other a "permanent" "role" (.jbool true) (by decide)
  simp [is_boss, jget, h]

theorem has_perm_set (l : List Doc) (i : Nat) (h : i < l.length) :
    has_perm (l.set i (setKey (l.getD i []) "permanent" (.jbool true))) = true := by
  rw [has_perm, List.any_eq_true]
  refine ⟨setKey (l.getD i []) "permanent" (.jbool true), ?_, truthy_perm_of_setKey _⟩
  have hlen : i < (l.set i (setKey (l.getD i []) "permanent" (.jbool true))).length := by
    simpa using h
  have hmem := List.getElem_mem hlen
  rw [List.getElem_set_self hlen] at hmem
  exact hmem

theorem has_perm_boss_set (l : List Doc) (i : Nat) (h : i < l.length)
    (hb : is_boss (l.getD i []) = true) :
    has_perm_boss (l.set i (setKey (l.getD i []) "permanent" (.jbool true))) = true := by
  rw [has_perm_boss, List.any_eq_true]
  refine ⟨setKey (l.getD i []) "permanent" (.jbool true), ?_, ?_⟩
  · have hlen : i < (l.set i (setKey (l.getD i []) "permanent" (.jbool true))).length := by
      simpa using h
    have hmem := List.getElem_mem hlen
    rw [List.getElem_set_self hlen] at hmem
    exact hmem
  · rw [truthy_perm_of_setKey, is_boss_setKey_perm, hb]
    rfl

theorem ensure_one_permanent_boss (l : List Doc)
    (hnp : (l.any fun a => truthy (jget a "permanent")) = false)
    (hb : (l.filter is_boss).isEmpty = false) :
    has_perm_boss (ensure_one_permanent l) = true := by
  unfold ensure_one_permanent
  rw [hnp]
  simp only [Bool.false_eq_true, if_false, hb]
  have hany : l.any is_boss = true := filter_nonempty_any l is_boss hb
  have hsome := stableMinIdx_isSome is_boss l hany
  rcases hik : stableMinIdx is_boss l with _ | ⟨i, key⟩
  · rw [hik] at hsome; simp at hsome
  · obtain ⟨hlt, hp⟩ := stableMinIdx_spec is_boss l i key hik
    apply has_perm_boss_set l i hlt
    rw [List.getD_eq_getElem l [] hlt]
    simpa [List.get_eq_getElem] using hp

theorem ensure_one_permanent_perm (l : List Doc)
    (hnp : (l.any fun a => truthy (jget a "permanent")) = false)
    (hne : l.isEmpty = false) :
    has_perm (ensure_one_permanent l) = true := by
  unfold ensure_one_permanent
  rw [hnp]
  simp only [Bool.false_eq_true, if_false]
  by_cases hb : (l.filter is_boss).isEmpty = false
  · simp only [hb]
    have hany : l.any is_boss = true := filter_nonempty_any l is_boss hb
    have hsome := stableMinIdx_isSome is_boss l hany
    rcases hik : stableMinIdx is_boss l with _ | ⟨i, key⟩
    · rw [hik] at hsome; simp at hsome
    · obtain ⟨hlt, _⟩ := stableMinIdx_spec is_boss l i key hik
      exact has_perm_set l i hlt
  · have hb2 : (l.filter is_boss).isEmpty = true := by
      cases hfe : (l.filter is_boss).isEmpty
      · exact absurd hfe hb
      · rfl
    simp only [hb2, if_true]
    have hany : l.any (fun _ => true) = true := by
      cases l with
      | nil => simp at hne
      | cons x xs => simp
    have hsome := stableMinIdx_isSome (fun _ => true) l hany
    rcases hik : stableMinIdx (fun _ => true) l with _ | ⟨i, key⟩
    · rw [hik] at hsome; simp at hsome
    · obtain ⟨hlt, _⟩ := stableMinIdx_spec (fun _ => true) l i key hik
      exact has_perm_set l i hlt

theorem partition_users_perm_false :
    ∀ (users : List Doc) (n : Int),
    has_perm (partition_users users n).1 = false := by
  intro users
  induction users with
  | nil => intro n; rfl
  | cons u rest ih =>
    intro n
    cases hm : is_member_role u with
    | true => simpa [partition_users, hm] using ih n
    | false =>
      have hperm : truthy (jget (mint_admin n u) "permanent") = false := by rfl
      have htl := ih (n + 1)
      simp only [has_perm] at htl
      simp [partition_users, hm, has_perm, List.any_cons, hperm, htl]

theorem ensure_admins_file_fresh (users : List Doc) :
    ensure_admins_file (freshState users) =
      some ⟨false,
        { users := [[("users", .jarr ((partition_users users 1).2.map .jobj))]],
          time_entries := [], message := [],
          admins := [[("admins",
            .jarr ((ensure_one_permanent (partition_users users 1).1).map .jobj))]],
          admin_settings := [] }⟩ := by
  have hdec : decodeField (read_direct (freshState users).store "users") "users"
      = some users := by
    simp [freshState, read_direct, getColl, emptyStore, decodeField, getOpt,
      asRecords_map_jobj]
  unfold ensure_admins_file
  rw [show (freshState users).diskAdminsExists = false from rfl]
  simp only [Bool.false_eq_true, if_false]
  rw [hdec]
  rfl

theorem foldl_max_ge_init : ∀ (ys : List Int) (y : Int), y ≤ ys.foldl max y := by
  intro ys
  induction ys with
  | nil => intro y; exact le_refl y
  | cons z zs ih =>
    intro y
    exact le_trans (le_max_left y z) (ih (max y z))

theorem foldl_max_ge_mem : ∀ (ys : List Int) (y a : Int), a ∈ ys → a ≤ ys.foldl max y := by
  intro ys
  induction ys with
  | nil => intro y a ha; simp at ha
  | cons z zs ih =>
    intro y a ha
    rcases List.mem_cons.mp ha with h | h
    · subst h
      exact le_trans (le_max_right y a) (foldl_max_ge_init zs (max y a))
    · exact ih (max y z) a h

theorem listMaxD_ge (xs : List Int) : ∀ a ∈ xs, a ≤ listMaxD xs := by
  intro a ha
  cases xs with
  | nil => simp at ha
  | cons y ys =>
    rcases List.mem_cons.mp ha with h | h
    · subst h
      exact foldl_max_ge_init ys a
    · exact foldl_max_ge_mem ys y a h

/-! ## Claim theorems -/

/-- C1 counterexample: the claim says that after `ensure_admins_file` the
stored admins always contain a record with `permanent = true` and role
`"boss"`, for every pre-migration users content including the empty case.
At the concrete input where the users collection is empty (no pre-migration
users at all), the bootstrap stores an empty admins list: no record at all
is created, in particular no permanent boss — `_ensure_one_permanent` only
promotes an existing record and mints no synthetic fallback. -/
theorem c1_counterexample_empty_users :
    (ensure_admins_file ⟨false, emptyStore⟩).map stored_admins_perm_boss = some false
    ∧ (ensure_admins_file ⟨false, emptyStore⟩).map (fun s => s.store.admins)
        = some [[("admins", .jarr [])]] := ⟨rfl, rfl⟩

/-- C1 (amended): after first bootstrap the stored admins document is the
partition of the pre-migration users run through `ensure_one_permanent`,
and (i) when the partitioned admins contain at least one boss-role record,
the stored list contains a record with `permanent = true` and role
`"boss"`; (ii) when the partitioned admins are non-empty, the stored list
contains a record with `permanent = true` (of whatever role); (iii) when
the partitioned admins are empty — every pre-migration user has role
`"member"`, or there are none — the stored admins list is empty, with no
synthetic fallback record. -/
theorem c1_amended_bootstrap_permanent (users : List Doc) :
    (ensure_admins_file (freshState users)).map (fun s => s.store.admins)
      = some [[("admins",
          .jarr ((ensure_one_permanent (partition_users users 1).1).map .jobj))]]
    ∧ (((partition_users users 1).1.filter is_boss).isEmpty = false →
        has_perm_boss (ensure_one_permanent (partition_users users 1).1) = true)
    ∧ ((partition_users users 1).1.isEmpty = false →
        has_perm (ensure_one_permanent (partition_users users 1).1) = true)
    ∧ ((partition_users users 1).1 = [] →
        ensure_one_permanent (partition_users users 1).1 = []) := by
  refine ⟨?_, ?_, ?_, ?_⟩
  · rw [ensure_admins_file_fresh]
    rfl
  · intro hb
    exact ensure_one_permanent_boss _ (partition_users_perm_false users 1) hb
  · intro hne
    exact ensure_one_permanent_perm _ (partition_users_perm_false users 1) hne
  · intro h0
    rw [h0]
    rfl

/-- Witness for C1 (amended), discharging each hypothesis at concrete
inputs: a single boss-role pre-migration user for (i) and (ii), and the
empty users list for (iii). -/
theorem c1_amended_bootstrap_permanent_witness :
    (((partition_users c1wUsers 1).1.filter is_boss).isEmpty = false
      ∧ has_perm_boss (ensure_one_permanent (partition_users c1wUsers 1).1) = true)
    ∧ ((partition_users c1wUsers 1).1.isEmpty = false
      ∧ has_perm (ensure_one_permanent (partition_users c1wUsers 1).1) = true)
    ∧ ensure_one_permanent (partition_users ([] : List Doc) 1).1 = [] :=
  ⟨⟨rfl, (c1_amended_bootstrap_permanent c1wUsers).2.1 rfl⟩,
   ⟨rfl, (c1_amended_bootstrap_permanent c1wUsers).2.2.1 rfl⟩,
   (c1_amended_bootstrap_permanent []).2.2.2 rfl⟩

/-- C2: the claim (and the function's own docstring, "migrate … on first
run") says running `ensure_admins_file` twice leaves the same stored state
as running it once, the re-partitioning being skipped once the admins
logical file has content. The code instead gates on
`os.path.exists('data/admins.json')`, a real-disk path that its own writes
(virtualized or direct-to-MongoDB) never create, so the flag stays false
and the second run re-partitions the now members-only users into an empty
admins list, overwriting — wiping — the admins stored by the first run:
after one run the store holds the migrated permanent boss, after two runs
it holds an empty admins list. -/
theorem c2_second_run_wipes_admins :
    (ensure_admins_file c2Start).map (fun s => s.store.admins)
      = some [[("admins", .jarr [.jobj c2MintedAdmin])]]
    ∧ ((ensure_admins_file c2Start).bind ensure_admins_file).map (fun s => s.store.admins)
      = some [[("admins", .jarr [])]] := ⟨rfl, rfl⟩

/-- C3 counterexample: the claim's own scenario fails — after
`write('data/admin_settings.json', {theme:'dark'})` on a fresh store, the
adapter's read returns `{'settings': {'theme': 'dark'}}` (the normalizer
wraps the payload under `settings` and the read returns the stored
document verbatim), not `{theme:'dark'}`: the returned document has no
top-level `theme` field at all. -/
theorem c3_counterexample_admin_settings :
    (write_json emptyStore "data/admin_settings.json" [("theme", .jstr "dark")] false).map
        (fun st => read_json st "data/admin_settings.json")
      = .ok [("settings", .jobj [("theme", .jstr "dark")])]
    ∧ getOpt [("settings", .jobj [("theme", .jstr "dark")])] "theme" = none := ⟨rfl, rfl⟩

/-- C3 (amended): write-then-read round-trips exactly (modulo `_id`
stripping, the identity here) for the three list-shaped keys — `users`,
`time_entries`, `admins` — whose normalized field name equals the canonical
one; for `message` the read returns the document under the renamed
`message_data` field, and for `admin_settings` it returns the payload
wrapped under a `settings` field; the read of `admin_settings` before any
write returns the empty mapping. -/
theorem c3_amended_roundtrip (xs ys zs : List JVal) (s : String) (d : Doc) :
    (write_json emptyStore "data/users.json" [("users", .jarr xs)] false).map
        (fun st => read_json st "data/users.json") = .ok [("users", .jarr xs)]
    ∧ (write_json emptyStore "data/time_entries.json" [("entries", .jarr ys)] false).map
        (fun st => read_json st "data/time_entries.json") = .ok [("entries", .jarr ys)]
    ∧ (write_json emptyStore "data/admins.json" [("admins", .jarr zs)] false).map
        (fun st => read_json st "data/admins.json") = .ok [("admins", .jarr zs)]
    ∧ (write_json emptyStore "data/message.json" [("message", .jstr s)] false).map
        (fun st => read_json st "data/message.json") = .ok [("message_data", .jstr s)]
    ∧ (write_json emptyStore "data/admin_settings.json" d false).map
        (fun st => read_json st "data/admin_settings.json") = .ok [("settings", .jobj d)]
    ∧ read_json emptyStore "data/admin_settings.json" = [] :=
  ⟨rfl, rfl, rfl, rfl, rfl, rfl⟩

/-- C4 counterexample: the claim says every backing-store failure inside a
write is surfaced as an error on every write path, the direct-MongoDB path
included. On the direct path (`app._write_to_mongodb`), with the client
available and `insert_one` failing after the successful `delete_many`, the
call returns normally (`.ok`) — and the collection is left empty, silent
data loss included. -/
theorem c4_counterexample_direct_write_swallows :
    write_to_mongodb true true c4Store "data/users.json" [("users", .jarr [])]
      = .ok { c4Store with users := [] }
    ∧ exceptIsOk (write_to_mongodb true true c4Store "data/users.json"
        [("users", .jarr [])]) = true := ⟨rfl, rfl⟩

/-- C4 (amended): the storage-adapter write path surfaces every
backing-store failure to the caller as an error (re-raised as
`RuntimeError`), for every key and document; the direct-MongoDB write path
of `app.py` never surfaces an error — it returns normally on every input,
failures included. -/
theorem c4_amended_error_surfacing :
    (∀ (store : Store) (filename : String) (data : Doc),
      exceptIsOk (write_json store filename data true) = false)
    ∧ (∀ (ca insf : Bool) (store : Store) (filename : String) (data : Doc),
      exceptIsOk (write_to_mongodb ca insf store filename data) = true) := by
  constructor
  · intro store filename data
    unfold write_json
    rcases h : get_collection_and_key filename with e | ⟨cname, dkey⟩
    · rfl
    · rfl
  · intro ca insf store filename data
    cases ca
    · rfl
    · unfold write_to_mongodb
      rcases h : (APP_COLLECTION_MAP.find? (fun e => e.1 == filename)).map (fun e => e.2)
        with _ | cname
      · rw [h]
        rfl
      · rw [h]
        cases insf <;> rfl

/-- C5: the claim says every storing operation preserves the one-document-
per-collection invariant, including the `migrate_to_mongodb` path taken
after the operator confirms overwriting non-empty collections. The script's
own comment announces "Clear existing data first", but the statement under
it is `pass`: `insert_one` then appends a second document to the already
non-empty collection — at the failing input (a collection already holding
one document), two documents result. -/
theorem c5_migrate_second_document :
    migrate_insert_document [[("admins", .jarr [])]]
        [("admins", .jarr [.jobj [("id", .jint 1)]])]
      = [[("admins", .jarr [])], [("admins", .jarr [.jobj [("id", .jint 1)]])]]
    ∧ (migrate_insert_document [[("admins", .jarr [])]]
        [("admins", .jarr [.jobj [("id", .jint 1)]])]).length = 2 := ⟨rfl, rfl⟩

/-- C6 counterexample: the claim says both read and write raise the
unknown-key `ValueError`, never silently defaulting. The adapter's read
catches that very error and returns a default picked by substring-matching
the filename: for the unregistered key `"backup_users.txt"` it silently
returns `{'users': []}`, and for `"no-such-file"` the empty mapping —
no error reaches the caller. -/
theorem c6_counterexample_read_defaults :
    isRegistered "backup_users.txt" = false
    ∧ read_json emptyStore "backup_users.txt" = [("users", .jarr [])]
    ∧ read_json emptyStore "no-such-file" = [] := ⟨rfl, rfl, rfl⟩

/-- C6 (amended): for every key not in the registry, the adapter write
propagates the unknown-key error to its caller (re-wrapped as
`RuntimeError`), while the adapter read catches the `ValueError` and
silently returns the empty default selected by substring-matching the
filename (`users`/`entries`/`message`/`admins`, else the empty mapping). -/
theorem c6_amended_unknown_key (store : Store) (filename : String) (data : Doc)
    (h : isRegistered filename = false) :
    exceptIsOk (write_json store filename data false) = false
    ∧ read_json store filename =
        (if strContains filename "users" then [("users", JVal.jarr [])]
         else if strContains filename "entries" then [("entries", JVal.jarr [])]
         else if strContains filename "message" then [("message", JVal.jstr "")]
         else if strContains filename "admins" then [("admins", JVal.jarr [])]
         else []) := by
  have hfind : FILE_TO_COLLECTION.find? (fun e => e.1 == filename) = none := by
    unfold isRegistered at h
    rcases hf : FILE_TO_COLLECTION.find? (fun e => e.1 == filename) with _ | e
    · exact hf
    · rw [hf] at h
      simp at h
  have herr : get_collection_and_key filename = .error ("Unknown file: " ++ filename) := by
    unfold get_collection_and_key
    rw [hfind]
  constructor
  · unfold write_json
    rw [herr]
    rfl
  · unfold read_json
    rw [herr]

/-- Witness for C6 (amended) at the concrete unregistered key `"bogus.json"`:
the write surfaces an error, the read silently returns the empty mapping. -/
theorem c6_amended_unknown_key_witness :
    isRegistered "bogus.json" = false
    ∧ exceptIsOk (write_json emptyStore "bogus.json" [] false) = false
    ∧ read_json emptyStore "bogus.json" = [] := by
  have h := c6_amended_unknown_key emptyStore "bogus.json" [] rfl
  refine ⟨rfl, h.1, ?_⟩
  rw [h.2]
  rfl

/-- C7 counterexample: the claim says a write fully replaces the stored
document body, carrying over no top-level field of the previous document.
The adapter writes with `update_one({}, {"$set": …})` — a field-wise merge:
after writing a fresh users document over a stored document that carries an
extra `legacy` field, the stored document still contains `legacy: 1`. -/
theorem c7_counterexample_carryover :
    (write_json c7Store "data/users.json" [("users", .jarr [.jobj [("id", .jint 1)]])]
        false).map (fun st => getOpt ((getColl st "users").headD []) "legacy")
      = .ok (some (.jint 1)) := rfl

/-- C7 (amended): the adapter write is an upsert-`$set`, not a full
replace — when the collection is empty the normalized document is inserted
exactly (nothing extra), and when a document exists the normalized fields
are merged into it: the written field overwrites, while every other
pre-existing top-level field carries over unchanged. -/
theorem c7_amended_set_merge :
    (∀ (store : Store) (filename cname dkey : String) (data : Doc),
      get_collection_and_key filename = .ok (cname, dkey) →
      getColl store cname = [] →
      write_json store filename data false =
        .ok (setColl store cname [ensure_structure cname dkey data]))
    ∧ (∀ (store : Store) (filename cname dkey : String) (data prior : Doc)
        (rest : List Doc),
      get_collection_and_key filename = .ok (cname, dkey) →
      getColl store cname = prior :: rest →
      write_json store filename data false =
        .ok (setColl store cname
          (setFields prior (ensure_structure cname dkey data) :: rest)))
    ∧ (∀ (d : Doc) (k : String) (v : JVal), getOpt (setFields d [(k, v)]) k = some v)
    ∧ (∀ (d : Doc) (k k' : String) (v : JVal), k' ≠ k →
        getOpt (setFields d [(k, v)]) k' = getOpt d k') := by
  refine ⟨?_, ?_, ?_, ?_⟩
  · intro store filename cname dkey data h1 h2
    unfold write_json
    rw [h1]
    simp only [Bool.false_eq_true, if_false]
    rw [h2]
    rfl
  · intro store filename cname dkey data prior rest h1 h2
    unfold write_json
    rw [h1]
    simp only [Bool.false_eq_true, if_false]
    rw [h2]
    rfl
  · intro d k v
    show getOpt (setKey d k v) k = some v
    exact getOpt_setKey_self d k v
  · intro d k k' v h
    show getOpt (setKey d k v) k' = getOpt d k'
    exact getOpt_setKey_other d k k' v h

/-- Witness for C7 (amended): the empty-collection insert at the message
key, the merge at the users key over `c7PriorDoc`, and the merge semantics
at concrete fields. -/
theorem c7_amended_set_merge_witness :
    (get_collection_and_key "data/message.json" = .ok ("message", "message_data")
      ∧ getColl emptyStore "message" = []
      ∧ write_json emptyStore "data/message.json" [("message", .jstr "hi")] false =
          .ok (setColl emptyStore "message"
            [ensure_structure "message" "message_data" [("message", .jstr "hi")]]))
    ∧ (getColl c7Store "users" = c7PriorDoc :: []
      ∧ write_json c7Store "data/users.json" [("users", .jarr [])] false =
          .ok (setColl c7Store "users"
            [setFields c7PriorDoc (ensure_structure "users" "users" [("users", .jarr [])])]))
    ∧ getOpt (setFields c7PriorDoc [("users", .jarr [])]) "users" = some (.jarr [])
    ∧ ("legacy" : String) ≠ "users"
    ∧ getOpt (setFields c7PriorDoc [("users", .jarr [])]) "legacy" = getOpt c7PriorDoc "legacy" := by
  refine ⟨⟨rfl, rfl, c7_amended_set_merge.1 emptyStore "data/message.json" "message"
      "message_data" [("message", .jstr "hi")] rfl rfl⟩,
    ⟨rfl, c7_amended_set_merge.2.1 c7Store "data/users.json" "users" "users"
      [("users", .jarr [])] c7PriorDoc [] rfl rfl⟩,
    c7_amended_set_merge.2.2.1 c7PriorDoc "users" (.jarr []),
    by decide,
    c7_amended_set_merge.2.2.2 c7PriorDoc "users" "legacy" (.jarr []) (by decide)⟩

/-- C8: the normalizer is total on mapping inputs — it is a plain function
(it cannot throw), and for each registered collection it returns a document
of that collection's stored canonical shape for every input, substituting
the empty default (empty sequence for the three list collections, empty
string for the message text) whenever the expected field is missing or of
the wrong type; extra input fields are discarded (for `admin_settings` the
whole mapping is wrapped verbatim). -/
theorem c8_normalizer_totality :
    (∀ d : Doc, canonical_shape "users" (ensure_structure "users" "users" d) = true)
    ∧ (∀ d : Doc,
        canonical_shape "time_entries" (ensure_structure "time_entries" "entries" d) = true)
    ∧ (∀ d : Doc,
        canonical_shape "message" (ensure_structure "message" "message_data" d) = true)
    ∧ (∀ d : Doc, canonical_shape "admins" (ensure_structure "admins" "admins" d) = true)
    ∧ (∀ d : Doc,
        canonical_shape "admin_settings"
          (ensure_structure "admin_settings" "settings" d) = true)
    ∧ (∀ d : Doc, isListVal (jget d "users") = false →
        ensure_structure "users" "users" d = [("users", .jarr [])])
    ∧ (∀ d : Doc, isListVal (jget d "entries") = false →
        ensure_structure "time_entries" "entries" d = [("entries", .jarr [])])
    ∧ (∀ d : Doc, isStrVal (jget d "message") = false →
        ensure_structure "message" "message_data" d = [("message_data", .jstr "")])
    ∧ (∀ d : Doc, isListVal (jget d "admins") = false →
        ensure_structure "admins" "admins" d = [("admins", .jarr [])]) := by
  refine ⟨?_, ?_, ?_, ?_, ?_, ?_, ?_, ?_, ?_⟩
  · intro d
    cases hv : jget d "users" <;> simp [ensure_structure, canonical_shape, isListVal, hv]
  · intro d
    cases hv : jget d "entries" <;> simp [ensure_structure, canonical_shape, isListVal, hv]
  · intro d
    cases hv : jget d "message" <;> simp [ensure_structure, canonical_shape, isStrVal, hv]
  · intro d
    cases hv : jget d "admins" <;> simp [ensure_structure, canonical_shape, isListVal, hv]
  · intro d
    simp [ensure_structure, canonical_shape]
  · intro d h
    simp [ensure_structure, h]
  · intro d h
    simp [ensure_structure, h]
  · intro d h
    simp [ensure_structure, h]
  · intro d h
    simp [ensure_structure, h]

/-- Witness for C8 at concrete malformed inputs: the wrong-typed fields are
replaced by the empty defaults and the outputs satisfy the canonical
shapes. -/
theorem c8_normalizer_totality_witness :
    canonical_shape "users" (ensure_structure "users" "users" c8Bad) = true
    ∧ isListVal (jget c8Bad "users") = false
    ∧ ensure_structure "users" "users" c8Bad = [("users", .jarr [])]
    ∧ isStrVal (jget c8BadMsg "message") = false
    ∧ ensure_structure "message" "message_data" c8BadMsg = [("message_data", .jstr "")] :=
  ⟨c8_normalizer_totality.1 c8Bad, rfl,
   c8_normalizer_totality.2.2.2.2.2.1 c8Bad rfl, rfl,
   c8_normalizer_totality.2.2.2.2.2.2.2.1 c8BadMsg rfl⟩

/-- C9: for every stored admins and users state (both lists empty
included), a login request whose password hashes to
`DEV_MASTER_PASSWORD_HASH` succeeds and establishes a boss-role session
built from `_get_default_boss` — the first stored boss, else the first
admin, else the synthetic `dev` identity — regardless of the supplied
username and before any stored credential is consulted. The
`password ≠ ""` hypothesis mirrors the `if not candidate` guard; it does
not narrow the claim, since the real SHA-256 digest of the empty string is
not the dev constant. -/
theorem c9_dev_master_login (sha256hex : String → String) (admins users : List Doc)
    (username : JVal) (password : String)
    (hne : password ≠ "") (hh : sha256hex password = DEV_MASTER_PASSWORD_HASH) :
    login sha256hex admins users username password =
      some (.success ⟨jgetD (get_default_boss admins) "id" (.jint (-1)),
        jgetD (get_default_boss admins) "username" (.jstr "dev"),
        .jstr "boss",
        jgetD (get_default_boss admins) "name" (.jstr "Developer")⟩ "/boss")
    ∧ (∀ b, admins.find? is_boss = some b → get_default_boss admins = b)
    ∧ (admins.find? is_boss = none → ∀ a tl, admins = a :: tl →
        get_default_boss admins = a)
    ∧ get_default_boss [] =
        [("id", .jint (-1)), ("username", .jstr "dev"),
         ("role", .jstr "boss"), ("name", .jstr "Developer")] := by
  have hc : is_dev_master_password sha256hex password = true := by
    unfold is_dev_master_password
    rw [if_neg hne, hh]
    simp
  refine ⟨?_, ?_, ?_, rfl⟩
  · unfold login
    rw [hc]
    rfl
  · intro b hfb
    unfold get_default_boss
    rw [hfb]
  · intro hfn a tl heq
    unfold get_default_boss
    rw [hfn, heq]

/-- Witness for C9 at concrete inputs: empty admins and users, arbitrary
username `null`, password `"x"` hashing to the constant — the login
succeeds as the synthetic boss `dev`. -/
theorem c9_dev_master_login_witness :
    ("x" : String) ≠ ""
    ∧ login c9Hash [] [] .jnull "x" =
        some (.success ⟨.jint (-1), .jstr "dev", .jstr "boss", .jstr "Developer"⟩ "/boss") :=
  ⟨by decide, (c9_dev_master_login c9Hash [] [] .jnull "x" (by decide) rfl).1⟩

/-- C10 counterexample: the claim says no member-management operation can
leave two stored member records sharing a username. `add_member` checks
only that username, password and name are non-empty — it never compares
the username against stored members (unlike `add_admin`) — so adding a
member named `bob` to a users list already containing member `bob`
succeeds and leaves two member records with that username. -/
theorem c10_counterexample_duplicate_username :
    (add_member c10Users c10Payload).map
        (fun r => match r with
          | .ok l => member_username_count l "bob"
          | .error _ => 0)
      = some 2 := rfl

/-- C10 (amended): what `add_member` does preserve is id uniqueness, not
username uniqueness — on any stored users whose ids decode, a valid
payload is appended as a member record whose id is `max(ids) + 1`, strictly
greater than every stored id; no username check of any kind is made, so a
duplicate username is accepted (see the counterexample). -/
theorem c10_amended_member_id_unique (users : List Doc) (data : Doc) (ids : List Int)
    (hids : idsOf users = some ids)
    (hu : truthy (jget data "username") = true)
    (hp : truthy (jget data "password") = true)
    (hn : truthy (jget data "name") = true) :
    add_member users data = some (.ok (users ++
      [[("id", .jint (listMaxD ids + 1)), ("username", jget data "username"),
        ("password", jget data "password"), ("role", .jstr "member"),
        ("postname", jgetD data "postname" (.jstr "")),
        ("callsign", jgetD data "callsign" (.jstr "")),
        ("name", jget data "name")]]))
    ∧ ∀ i ∈ ids, i < listMaxD ids + 1 := by
  constructor
  · unfold add_member
    rw [hids]
    simp [hu, hp, hn]
  · intro i hi
    have := listMaxD_ge ids i hi
    omega

/-- Witness for C10 (amended) at concrete inputs: ids decode to `[3]`, the
payload fields are truthy, the new member gets id 4, strictly above the
stored id 3. -/
theorem c10_amended_member_id_unique_witness :
    idsOf c10wUsers = some [3]
    ∧ add_member c10wUsers c10wPayload = some (.ok (c10wUsers ++
        [[("id", .jint 4), ("username", .jstr "b"), ("password", .jstr "q"),
          ("role", .jstr "member"), ("postname", .jstr ""), ("callsign", .jstr ""),
          ("name", .jstr "B")]]))
    ∧ (3 : Int) < listMaxD [3] + 1 := by
  have h := c10_amended_member_id_unique c10wUsers c10wPayload [3] rfl rfl rfl rfl
  exact ⟨rfl, h.1, h.2 3 (by simp)⟩
